import Mathlib

/-!
Shallow embedding of the MIDI file codec implemented in `src/iomidi.py`.

Streams are modelled as a byte list together with a cursor (`RStream`),
matching Python file objects opened in binary mode: `f.read(k)` returns up
to `k` bytes starting at the cursor (and all remaining bytes when `k` is
negative, as CPython's `file.read` does), and `f.seek(-1, io.SEEK_CUR)`
moves the cursor back one byte.  Machine integers are `Nat`; the source's
bit operations are translated arithmetically: `b & 0x7F` is `b % 128`,
`b >> 7` is `b / 128`, `b >> 4` is `b / 16`, `b & 0xF` is `b % 16`,
`s << 4` is `s * 16`, and `b | 0x80` is `b + 128` (the argument is always
a 7-bit group there).

Fallible paths of the Python code are modelled with `Except PyErr`: the
two explicit `MIDIIOError` raises, the `TypeError` raised by `ord('')`
when `_readVarLen` reads at end of file, and the `NameError` raised when a
local name is referenced without having been bound (`event` in
`_readMIDIEvent` when no status branch matches, and `data` in
`_writeSystemExclusiveEvent`).  `_readInt` and `_readBlock` never fail: a
short read simply yields the bytes that are available.  The
`self._byteCount` bookkeeping of `MIDIReader` is not modelled; it never
influences any produced value.
-/

namespace Iomidi

/-- Exceptions the Python implementation can raise while decoding or
encoding. -/
inductive PyErr where
  /-- `MIDIIOError('Invalid MIDI header identifier.')` from `_readHeader`. -/
  | invalidHeaderId
  /-- `MIDIIOError('Invalid MIDI track identifier.')` from `_readTrack`. -/
  | invalidTrackId
  /-- Python `NameError`: a local name referenced but never bound. -/
  | nameError
  /-- Python `TypeError`: `ord('')` after an empty read in `_readVarLen`. -/
  | typeError
  /-- Fuel exhaustion of the modelled `while True` loop of `_readTrack`;
  not an exception of the source, and never reached on the inputs
  considered in this development (each loop iteration consumes at least
  one byte of the stream). -/
  | outOfFuel
deriving DecidableEq

/-- `_CHUNK_TYPE_HEADER = 'MThd'` as bytes. -/
def CHUNK_TYPE_HEADER : List Nat := [0x4D, 0x54, 0x68, 0x64]

/-- `_CHUNK_TYPE_TRACK = 'MTrk'` as bytes. -/
def CHUNK_TYPE_TRACK : List Nat := [0x4D, 0x54, 0x72, 0x6B]

/-- `_PREFIX_SYSEX = 0xF0` -/
def PREFIX_SYSEX : Nat := 0xF0

/-- `_PREFIX_SYSEX_NOXMIT = 0xF7` -/
def PREFIX_SYSEX_NOXMIT : Nat := 0xF7

/-- `_PREFIX_META = 0xFF` -/
def PREFIX_META : Nat := 0xFF

/-- `_STATUS_NOTE_OFF = 0b1000` -/
def STATUS_NOTE_OFF : Nat := 8

/-- `_STATUS_NOTE_ON = 0b1001` -/
def STATUS_NOTE_ON : Nat := 9

/-- `_STATUS_POLY_KEY_PRESS = 0b1010` -/
def STATUS_POLY_KEY_PRESS : Nat := 10

/-- `_STATUS_CONTROL_CHANGE = 0b1011` -/
def STATUS_CONTROL_CHANGE : Nat := 11

/-- `_STATUS_PROGRAM_CHANGE = 0b1100` -/
def STATUS_PROGRAM_CHANGE : Nat := 12

/-- `_STATUS_CHANNEL_PRESS = 0b1101` -/
def STATUS_CHANNEL_PRESS : Nat := 13

/-- `_STATUS_PITCH_WHEEL_CHANGE = 0b1110` -/
def STATUS_PITCH_WHEEL_CHANGE : Nat := 14

/-- `_META_END_OF_TRACK = 0x2F` -/
def META_END_OF_TRACK : Nat := 0x2F

/-- The event classes of `iomidi.py` as one tagged union.  `EndOfTrackEvent`
(the `MetaEvent` subclass whose `metaType` is `0x2F` and whose `data` is
the empty list) is its own constructor carrying only `delta`. -/
inductive Event where
  | noteOff (delta channel key velocity : Nat)
  | noteOn (delta channel key velocity : Nat)
  | polyphonicKeyPressure (delta channel key velocity : Nat)
  | controlChange (delta channel controller value : Nat)
  | programChange (delta channel value : Nat)
  | channelPressure (delta channel value : Nat)
  | pitchWheelChange (delta channel least most : Nat)
  | meta (delta metaType : Nat) (data : List Nat)
  | endOfTrack (delta : Nat)
  | sysEx (delta sysExType : Nat) (data : List Nat)
deriving DecidableEq

/-- The `delta` field shared by every event class. -/
def Event.delta : Event → Nat
  | .noteOff d _ _ _ => d
  | .noteOn d _ _ _ => d
  | .polyphonicKeyPressure d _ _ _ => d
  | .controlChange d _ _ _ => d
  | .programChange d _ _ => d
  | .channelPressure d _ _ => d
  | .pitchWheelChange d _ _ _ => d
  | .meta d _ _ => d
  | .endOfTrack d => d
  | .sysEx d _ _ => d

/-- `MIDIHeader`, fields in the order of its `__init__` parameters
`(frmt, division, trackCount)`. -/
structure MIDIHeader where
  frmt : Nat
  division : Nat
  trackCount : Nat
deriving DecidableEq

/-- `MIDITrack`: an ordered list of events. -/
structure MIDITrack where
  events : List Event
deriving DecidableEq

/-- The `MIDI` document object: one header and a list of tracks. -/
structure MIDI where
  header : MIDIHeader
  tracks : List MIDITrack
deriving DecidableEq

/-- `MIDI.__init__(header=None, tracks=None)`: defaults the header to
`MIDIHeader()` (that is `frmt=1, division=220, trackCount=0`) and then
overwrites `header.trackCount` with `len(tracks) if tracks else 0`.
Tracks are modelled as a list (`None` behaves as the empty list here,
since `len(tracks) if tracks else 0` is `0` for both). -/
def MIDI.make (header : Option MIDIHeader) (tracks : List MIDITrack) : MIDI :=
  let h := header.getD ⟨1, 220, 0⟩
  { header := { h with trackCount := tracks.length }, tracks := tracks }

/-- A Python binary file open for reading: the full byte list and the
current cursor position. -/
structure RStream where
  data : List Nat
  pos : Nat
deriving DecidableEq

/-- `f.read(n)` for a possibly negative `n` followed by the cursor update:
a negative count reads everything from the cursor to end of file (CPython
`file.read` semantics), a nonnegative count reads at most `n` bytes.
Used by `_readBlock`, whose argument `length - 6` in `_readHeader` can be
negative. -/
def readBlock (s : RStream) (n : Int) : List Nat × RStream :=
  let buff := if n < 0 then s.data.drop s.pos else (s.data.drop s.pos).take n.toNat
  (buff, ⟨s.data, s.pos + buff.length⟩)

/-- The accumulator loop of `_readInt`:
`retVal = retVal << 8; retVal += ord(byte)` over the bytes read. -/
def readIntValue (buff : List Nat) : Nat :=
  buff.foldl (fun retVal b => retVal * 256 + b) 0

/-- `MIDIReader._readInt(f, byteCount)`: reads up to `byteCount` bytes and
folds them big-endian.  A short read at end of file is NOT an error: the
loop simply folds the bytes that `f.read` returned. -/
def readInt (s : RStream) (byteCount : Nat) : Nat × RStream :=
  let buff := (s.data.drop s.pos).take byteCount
  (readIntValue buff, ⟨s.data, s.pos + buff.length⟩)

/-- The `while True` loop of `_readVarLen` over the remaining bytes:
`retVal = (retVal << 7) + (byte & 0x7F)`, stopping at the first byte whose
high bit (`byte >> 7`) is clear.  Reading at end of file is `ord('')`,
a Python `TypeError`.  Returns the value and the number of bytes
consumed. -/
def readVarLenGo : List Nat → Nat → Except PyErr (Nat × Nat)
  | [], _ => .error .typeError
  | b :: rest, retVal =>
    let retVal := retVal * 128 + b % 128
    if b / 128 = 0 then .ok (retVal, 1)
    else (readVarLenGo rest retVal).map (fun p => (p.1, p.2 + 1))

/-- `MIDIReader._readVarLen(f)`. -/
def readVarLen (s : RStream) : Except PyErr (Nat × RStream) :=
  (readVarLenGo (s.data.drop s.pos) 0).map (fun p => (p.1, ⟨s.data, s.pos + p.2⟩))

/-- `MIDIReader._readSystemExclusiveEvent(delta, prefix, f)`: a var-length
data length, then that many bytes of payload. -/
def readSystemExclusiveEvent (delta sysExType : Nat) (s : RStream) :
    Except PyErr (Event × RStream) := do
  let (length, s) ← readVarLen s
  let (data, s) := readBlock s (length : Int)
  return (.sysEx delta sysExType data, s)

/-- `MIDIReader._readMetaEvent(delta, prefix, f)`: one byte of `metaType`,
a var-length `length`, `length` bytes of data; `metaType == 0x2F` yields
`EndOfTrackEvent(delta)` (the data bytes are consumed but discarded),
anything else a generic `MetaEvent`. -/
def readMetaEvent (delta : Nat) (s : RStream) : Except PyErr (Event × RStream) := do
  let (metaType, s) := readInt s 1
  let (length, s) ← readVarLen s
  let (data, s) := readBlock s (length : Int)
  if metaType = META_END_OF_TRACK then
    return (.endOfTrack delta, s)
  else
    return (.meta delta metaType data, s)

/-- The status dispatch of `_readMIDIEvent` after running status has been
resolved: `status = prefix >> 4`, `channel = prefix & 0xF`, then one
`if/elif` branch per defined status nibble reading the operand bytes.
No `else` branch exists in the source, so any other nibble leaves the
local `event` unbound and the trailing `return event` raises
`NameError`. -/
def readChannelBody (delta pfx : Nat) (s : RStream) (runningStatus : Nat) :
    Except PyErr (Event × RStream × Nat) :=
  let status := pfx / 16
  let channel := pfx % 16
  if status = STATUS_NOTE_OFF then
    let (key, s) := readInt s 1
    let (vel, s) := readInt s 1
    .ok (.noteOff delta channel key vel, s, runningStatus)
  else if status = STATUS_NOTE_ON then
    let (key, s) := readInt s 1
    let (vel, s) := readInt s 1
    .ok (.noteOn delta channel key vel, s, runningStatus)
  else if status = STATUS_POLY_KEY_PRESS then
    let (key, s) := readInt s 1
    let (val, s) := readInt s 1
    .ok (.polyphonicKeyPressure delta channel key val, s, runningStatus)
  else if status = STATUS_CONTROL_CHANGE then
    let (controller, s) := readInt s 1
    let (val, s) := readInt s 1
    .ok (.controlChange delta channel controller val, s, runningStatus)
  else if status = STATUS_PROGRAM_CHANGE then
    let (val, s) := readInt s 1
    .ok (.programChange delta channel val, s, runningStatus)
  else if status = STATUS_CHANNEL_PRESS then
    let (val, s) := readInt s 1
    .ok (.channelPressure delta channel val, s, runningStatus)
  else if status = STATUS_PITCH_WHEEL_CHANGE then
    let (least, s) := readInt s 1
    let (most, s) := readInt s 1
    .ok (.pitchWheelChange delta channel least most, s, runningStatus)
  else
    .error .nameError

/-- `MIDIReader._readMIDIEvent(delta, prefix, f)`.  If the high bit of the
prefix byte (`(prefix >> 7) & 1`, here `prefix / 128 % 2`) is set, the
byte is a fresh status byte and is stored as the running status;
otherwise the stored running status is used instead and the cursor is
moved back one byte (`f.seek(-1, io.SEEK_CUR)`) so that the byte just
read becomes the first operand.  Returns the event, the stream, and the
possibly updated running status. -/
def readMIDIEvent (delta pfx : Nat) (s : RStream) (runningStatus : Nat) :
    Except PyErr (Event × RStream × Nat) :=
  if pfx / 128 % 2 = 1 then
    readChannelBody delta pfx s pfx
  else
    readChannelBody delta runningStatus ⟨s.data, s.pos - 1⟩ runningStatus

/-- `MIDIReader._readEvent(f)`: a var-length delta, one prefix byte, then
dispatch on the prefix (`0xF0`/`0xF7` system exclusive, `0xFF` meta,
anything else a channel event). -/
def readEvent (s : RStream) (runningStatus : Nat) :
    Except PyErr (Event × RStream × Nat) := do
  let (delta, s) ← readVarLen s
  let (pfx, s) := readInt s 1
  if pfx = PREFIX_SYSEX ∨ pfx = PREFIX_SYSEX_NOXMIT then
    let (e, s) ← readSystemExclusiveEvent delta pfx s
    return (e, s, runningStatus)
  else if pfx = PREFIX_META then
    let (e, s) ← readMetaEvent delta s
    return (e, s, runningStatus)
  else
    readMIDIEvent delta pfx s runningStatus

/-- The `while True` loop of `_readTrack`: read an event, append it, stop
after appending an `EndOfTrackEvent`.  The loop is modelled with fuel;
`readTrack` passes one more than the stream length, which is never
exhausted because every iteration consumes at least one byte. -/
def readTrackGo (fuel : Nat) (s : RStream) (runningStatus : Nat)
    (acc : List Event) : Except PyErr (List Event × RStream × Nat) :=
  match fuel with
  | 0 => .error .outOfFuel
  | fuel + 1 => do
    let (e, s, runningStatus) ← readEvent s runningStatus
    let acc := acc ++ [e]
    match e with
    | .endOfTrack _ => .ok (acc, s, runningStatus)
    | _ => readTrackGo fuel s runningStatus acc

/-- `MIDIReader._readTrack(f)`: validates the `'MTrk'` tag, reads the
32-bit declared length (which is never checked against the bytes actually
consumed), then loops reading events until end of track. -/
def readTrack (s : RStream) (runningStatus : Nat) :
    Except PyErr (MIDITrack × RStream × Nat) := do
  let (buff, s) := readBlock s 4
  if buff ≠ CHUNK_TYPE_TRACK then
    .error .invalidTrackId
  else do
    let (_length, s) := readInt s 4
    let (events, s, runningStatus) ← readTrackGo (s.data.length + 1) s runningStatus []
    return (⟨events⟩, s, runningStatus)

/-- `MIDIReader._readHeader(f)`: validates the `'MThd'` tag, reads the
32-bit chunk length and the three 16-bit fields, then consumes
`length - 6` further bytes ("consume remainder (for non-standard
headers)").  `length - 6` is a Python int and is negative when
`length < 6`, in which case `f.read` consumes the whole remaining
stream. -/
def readHeader (s : RStream) : Except PyErr (MIDIHeader × RStream) := do
  let (buff, s) := readBlock s 4
  if buff ≠ CHUNK_TYPE_HEADER then
    .error .invalidHeaderId
  else do
    let (length, s) := readInt s 4
    let (frmt, s) := readInt s 2
    let (trackCount, s) := readInt s 2
    let (division, s) := readInt s 2
    let (_, s) := readBlock s ((length : Int) - 6)
    return (⟨frmt, division, trackCount⟩, s)

/-- The track loop of `MIDIReader.read`: `for i in range(header.trackCount)`
reading one track per iteration, with the reader's `_runningStatus`
instance attribute threaded through all of them. -/
def readTracksGo : Nat → RStream → Nat → List MIDITrack →
    Except PyErr (List MIDITrack × RStream × Nat)
  | 0, s, runningStatus, acc => .ok (acc, s, runningStatus)
  | n + 1, s, runningStatus, acc => do
    let (t, s, runningStatus) ← readTrack s runningStatus
    readTracksGo n s runningStatus (acc ++ [t])

/-- `MIDIReader().read(fileName)` on the given file contents: the reader
is freshly constructed, so `_runningStatus` starts at `0`; the result is
`MIDI(header=header, tracks=tracks)`. -/
def readMIDI (data : List Nat) : Except PyErr MIDI := do
  let (header, s) ← readHeader ⟨data, 0⟩
  let (tracks, _, _) ← readTracksGo header.trackCount s 0 []
  return MIDI.make (some header) tracks

/-- `MIDIWriter._writeInt(f, byteCount, n)`:
`for i in range(byteCount-1, -1, -1): f.write(chr(n >> (i*8) & 0xFF))`,
that is the `byteCount` low-order bytes of `n`, most significant first. -/
def writeInt : Nat → Nat → List Nat
  | 0, _ => []
  | k + 1, n => n / 256 ^ k % 256 :: writeInt k n

/-- The do-while loop of `_writeVarLen`: collect `n & 0x7F`, shift `n`
right by 7, repeat until `n == 0`; so the 7-bit groups of `n`, least
significant first, and `[0]` for `n = 0`.  Modelled with fuel `n`, which
is never exhausted because `n / 128 < n` whenever the loop continues. -/
def varLenGroupsGo : Nat → Nat → List Nat
  | 0, n => [n % 128]
  | fuel + 1, n => if n / 128 = 0 then [n % 128] else n % 128 :: varLenGroupsGo fuel (n / 128)

/-- The `buff` list built by `_writeVarLen` before marking and
reversal. -/
def varLenGroups (n : Nat) : List Nat := varLenGroupsGo n n

/-- `MIDIWriter._writeVarLen(f, n)`: every group except `buff[0]` (the
least significant, which is emitted last) is marked with the continuation
bit (`byte | 0x80`, that is `+ 128` since groups are 7-bit), and the list
is written in reversed order, most significant group first. -/
def writeVarLen (n : Nat) : List Nat :=
  match varLenGroups n with
  | [] => []
  | g :: gs => (gs.map (fun b => b + 128)).reverse ++ [g]

/-- `MIDIWriter._concatPrefix(status, channel) = (status << 4) + channel`. -/
def concatStatus (status channel : Nat) : Nat := status * 16 + channel

/-- `MIDIWriter._writeMIDIEvent(f, event)`: status byte then the operand
bytes, one `isinstance` branch per channel-event class.  A non-channel
event matches no branch and writes nothing, exactly as the source's
`if/elif` chain would. -/
def writeMIDIEvent : Event → List Nat
  | .noteOff _ c k v =>
    writeInt 1 (concatStatus STATUS_NOTE_OFF c) ++ writeInt 1 k ++ writeInt 1 v
  | .noteOn _ c k v =>
    writeInt 1 (concatStatus STATUS_NOTE_ON c) ++ writeInt 1 k ++ writeInt 1 v
  | .polyphonicKeyPressure _ c k v =>
    writeInt 1 (concatStatus STATUS_POLY_KEY_PRESS c) ++ writeInt 1 k ++ writeInt 1 v
  | .controlChange _ c ctrl v =>
    writeInt 1 (concatStatus STATUS_CONTROL_CHANGE c) ++ writeInt 1 ctrl ++ writeInt 1 v
  | .programChange _ c v =>
    writeInt 1 (concatStatus STATUS_PROGRAM_CHANGE c) ++ writeInt 1 v
  | .channelPressure _ c v =>
    writeInt 1 (concatStatus STATUS_CHANNEL_PRESS c) ++ writeInt 1 v
  | .pitchWheelChange _ c l m =>
    writeInt 1 (concatStatus STATUS_PITCH_WHEEL_CHANGE c) ++ writeInt 1 l ++ writeInt 1 m
  | _ => []

/-- `MIDIWriter._writeMetaEvent(f, event)`: `0xFF`, the meta type byte,
then `len(event.data)` written as ONE fixed byte (`_writeInt(f, 1, ...)`,
not `_writeVarLen`), then the data if non-empty. -/
def writeMetaEvent (metaType : Nat) (data : List Nat) : List Nat :=
  writeInt 1 PREFIX_META ++ writeInt 1 metaType ++ writeInt 1 data.length ++
    (if data.isEmpty then [] else data)

/-- `MIDIWriter._writeSystemExclusiveEvent(f, event)`: the sysex type
byte, then `len(event.data)` as ONE fixed byte; if the data is non-empty
the source executes `self._writeBlock(f, data)` where `data` is an
undefined name, raising `NameError`. -/
def writeSystemExclusiveEvent (sysExType : Nat) (data : List Nat) :
    Except PyErr (List Nat) :=
  if data.isEmpty then
    .ok (writeInt 1 sysExType ++ writeInt 1 data.length)
  else
    .error .nameError

/-- `MIDIWriter._writeEvent(f, event)`: the delta as a var-length
quantity, then dispatch in the source's `isinstance` order (system
exclusive first, then `MetaEvent` which also catches `EndOfTrackEvent`
with `metaType = 0x2F` and empty data, else a channel event). -/
def writeEvent (e : Event) : Except PyErr (List Nat) :=
  match e with
  | .sysEx d t data => (writeSystemExclusiveEvent t data).map (fun b => writeVarLen d ++ b)
  | .meta d t data => .ok (writeVarLen d ++ writeMetaEvent t data)
  | .endOfTrack d => .ok (writeVarLen d ++ writeMetaEvent META_END_OF_TRACK [])
  | e => .ok (writeVarLen e.delta ++ writeMIDIEvent e)

/-- The per-track buffer loop of `_writeTrack`: every event of the track
encoded into one byte list. -/
def writeEvents : List Event → Except PyErr (List Nat)
  | [] => .ok []
  | e :: es => do
    let b ← writeEvent e
    let bs ← writeEvents es
    return b ++ bs

/-- `MIDIWriter._writeTrack(f, track)`: encode all events into a buffer
first, then emit the `'MTrk'` tag, the 32-bit buffer length, and the
buffer. -/
def writeTrack (t : MIDITrack) : Except PyErr (List Nat) := do
  let buff ← writeEvents t.events
  return CHUNK_TYPE_TRACK ++ writeInt 4 buff.length ++ buff

/-- `MIDIWriter._writeHeader(f, header)`: the `'MThd'` tag, a declared
chunk length of 6, then the STORED `header.frmt`, `header.trackCount`
and `header.division` fields, two bytes each. -/
def writeHeader (h : MIDIHeader) : List Nat :=
  CHUNK_TYPE_HEADER ++ writeInt 4 6 ++ writeInt 2 h.frmt ++
    writeInt 2 h.trackCount ++ writeInt 2 h.division

/-- The track loop of `MIDIWriter.write`. -/
def writeTracks : List MIDITrack → Except PyErr (List Nat)
  | [] => .ok []
  | t :: ts => do
    let b ← writeTrack t
    let bs ← writeTracks ts
    return b ++ bs

/-- `MIDIWriter().write(fileName, midi)`: the header chunk followed by
every track chunk, as the byte contents of the written file. -/
def writeMIDI (m : MIDI) : Except PyErr (List Nat) := do
  let body ← writeTracks m.tracks
  return writeHeader m.header ++ body

/-- Is the event the dedicated end-of-track marker? -/
def Event.isEOT : Event → Bool
  | .endOfTrack _ => true
  | _ => false

/-- In-range fields in the sense of claim C1: deltas within the 28-bit
var-length range, channels 4-bit, operand bytes 7-bit, meta types one
byte and distinct from `0x2F` (which the data model reserves for the
dedicated end-of-track constructor), sysex types the two defined prefix
bytes, and data bytes one byte each, with NO restriction on data
length. -/
def Event.wf : Event → Bool
  | .noteOff d c k v => d ≤ 0xFFFFFFF && c < 16 && k < 128 && v < 128
  | .noteOn d c k v => d ≤ 0xFFFFFFF && c < 16 && k < 128 && v < 128
  | .polyphonicKeyPressure d c k v => d ≤ 0xFFFFFFF && c < 16 && k < 128 && v < 128
  | .controlChange d c k v => d ≤ 0xFFFFFFF && c < 16 && k < 128 && v < 128
  | .programChange d c v => d ≤ 0xFFFFFFF && c < 16 && v < 128
  | .channelPressure d c v => d ≤ 0xFFFFFFF && c < 16 && v < 128
  | .pitchWheelChange d c l m => d ≤ 0xFFFFFFF && c < 16 && l < 128 && m < 128
  | .meta d t data => d ≤ 0xFFFFFFF && t < 256 && t ≠ META_END_OF_TRACK && data.all (· < 256)
  | .endOfTrack d => d ≤ 0xFFFFFFF
  | .sysEx d t data =>
    d ≤ 0xFFFFFFF && (t = PREFIX_SYSEX || t = PREFIX_SYSEX_NOXMIT) && data.all (· < 256)

/-- A well-formed track in the sense of claim C1: the last event is the
single end-of-track marker and every other event is a well-formed
non-terminator. -/
def MIDITrack.wf (t : MIDITrack) : Bool :=
  match t.events.getLast? with
  | some (.endOfTrack d) =>
    d ≤ 0xFFFFFFF && t.events.dropLast.all (fun e => e.wf && !e.isEOT)
  | _ => false

/-- A well-formed document in the sense of claim C1: 16-bit header fields,
a track count that matches the track list, and well-formed tracks. -/
def MIDI.wf (m : MIDI) : Bool :=
  m.header.frmt < 65536 && m.header.division < 65536 &&
    m.header.trackCount = m.tracks.length && m.tracks.all MIDITrack.wf

/-- A well-formed single-track document whose only non-terminator event is
a system-exclusive event with one data byte. -/
def c1DocSys : MIDI := ⟨⟨1, 96, 1⟩, [⟨[.sysEx 0 0xF0 [0x41], .endOfTrack 0]⟩]⟩

/-- A well-formed single-track document whose only non-terminator event is
a meta event of type `0x01` with 128 data bytes. -/
def c1DocMeta : MIDI := ⟨⟨1, 96, 1⟩, [⟨[.meta 0 0x01 (List.replicate 128 0x41), .endOfTrack 0]⟩]⟩

/-- The bytes `writeMIDI` produces for `c1DocMeta`: the meta event's
128-byte data length is emitted as the single raw byte `128` (high bit
set), which the reader will consume as a var-length continuation byte. -/
def c1MetaBytes : List Nat :=
  CHUNK_TYPE_HEADER ++ [0, 0, 0, 6, 0, 1, 0, 1, 0, 96] ++
    CHUNK_TYPE_TRACK ++ [0, 0, 0, 136] ++
    [0, 0xFF, 0x01, 128] ++ List.replicate 128 0x41 ++ [0, 0xFF, 0x2F, 0]

/-- A track chunk whose first event omits its status byte (first event
byte `0x3C` has the high bit clear): decodable only through a running
status carried in from outside the track. -/
def c5Track2Bytes : List Nat :=
  CHUNK_TYPE_TRACK ++ [0, 0, 0, 7] ++ [0x00, 0x3C, 0x00, 0x00, 0xFF, 0x2F, 0x00]

/-- A two-track file: track 1 ends with running status `0x90` stored,
track 2 begins with the status-less event bytes of `c5Track2Bytes`. -/
def c5FileBytes : List Nat :=
  CHUNK_TYPE_HEADER ++ [0, 0, 0, 6, 0, 1, 0, 2, 0, 96] ++
    CHUNK_TYPE_TRACK ++ [0, 0, 0, 8] ++ [0x00, 0x90, 0x3C, 0x64, 0x00, 0xFF, 0x2F, 0x00] ++
    c5Track2Bytes

/-! ## Helper lemmas -/

/-- `Except.bind` on a success just applies the continuation. -/
theorem except_bind_ok {α β : Type} (a : α) (f : α → Except PyErr β) :
    (Except.ok a >>= f) = f a := rfl

/-- Dropping the length of a leading chunk of an append. -/
theorem drop_append_len {α : Type} (front l : List α) (n : Nat)
    (h : front.length = n) : (front ++ l).drop n = l :=
  List.drop_left' h

/-- Taking the length of a leading chunk of an append. -/
theorem take_append_len {α : Type} (front l : List α) (n : Nat)
    (h : front.length = n) : (front ++ l).take n = front :=
  List.take_left' h

/-- Reading one byte from a stream whose remainder is known. -/
theorem readInt_one (s : RStream) (b : Nat) (l : List Nat)
    (h : s.data.drop s.pos = b :: l) :
    readInt s 1 = (b, ⟨s.data, s.pos + 1⟩) := by
  unfold readInt
  rw [h]
  simp [readIntValue]

/-- Reading two bytes from a stream whose remainder is known. -/
theorem readInt_two (s : RStream) (b1 b2 : Nat) (l : List Nat)
    (h : s.data.drop s.pos = b1 :: b2 :: l) :
    readInt s 2 = (b1 * 256 + b2, ⟨s.data, s.pos + 2⟩) := by
  unfold readInt
  rw [h]
  simp [readIntValue]

/-- Reading four bytes from a stream whose remainder is known. -/
theorem readInt_four (s : RStream) (b1 b2 b3 b4 : Nat) (l : List Nat)
    (h : s.data.drop s.pos = b1 :: b2 :: b3 :: b4 :: l) :
    readInt s 4 = (((b1 * 256 + b2) * 256 + b3) * 256 + b4, ⟨s.data, s.pos + 4⟩) := by
  unfold readInt
  rw [h]
  simp [readIntValue]

/-- A var-length quantity consisting of one byte with the high bit
clear. -/
theorem readVarLen_single (s : RStream) (b : Nat) (l : List Nat) (hb : b < 128)
    (h : s.data.drop s.pos = b :: l) :
    readVarLen s = .ok (b, ⟨s.data, s.pos + 1⟩) := by
  unfold readVarLen
  rw [h]
  simp [readVarLenGo, Nat.div_eq_of_lt hb, Nat.mod_eq_of_lt hb, Except.map]

/-- `readBlock` with a nonnegative count for which enough bytes remain. -/
theorem readBlock_exact (s : RStream) (data rest : List Nat) (n : Nat)
    (hd : data.length = n) (h : s.data.drop s.pos = data ++ rest) :
    readBlock s (n : Int) = (data, ⟨s.data, s.pos + n⟩) := by
  unfold readBlock
  rw [if_neg (by omega : ¬ (n : Int) < 0)]
  rw [h]
  simp [Int.toNat_ofNat, take_append_len data rest n hd, hd]

/-- `readBlock` with a negative count consumes everything up to end of
file off the stream. -/
theorem readBlock_neg (s : RStream) (n : Int) (hn : n < 0) :
    readBlock s n = (s.data.drop s.pos, ⟨s.data, s.pos + (s.data.drop s.pos).length⟩) := by
  unfold readBlock
  rw [if_pos hn]

/-- Reading a 4-byte chunk tag from a stream whose remainder is known. -/
theorem readBlock_tag (s : RStream) (tag l : List Nat) (htag : tag.length = 4)
    (h : s.data.drop s.pos = tag ++ l) :
    readBlock s 4 = (tag, ⟨s.data, s.pos + 4⟩) := by
  unfold readBlock
  rw [if_neg (by omega : ¬ (4 : Int) < 0)]
  dsimp only
  rw [show ((4 : Int)).toNat = 4 from rfl, h, take_append_len _ _ _ htag, htag]

/-- `writeInt` emits exactly `byteCount` bytes. -/
theorem length_writeInt (k n : Nat) : (writeInt k n).length = k := by
  induction k with
  | zero => rfl
  | succ k ih => simp [writeInt, ih]

/-- Splitting the big-endian fold over its accumulator. -/
theorem foldl_mul256 (l : List Nat) : ∀ acc : Nat,
    l.foldl (fun a b => a * 256 + b) acc =
      acc * 256 ^ l.length + l.foldl (fun a b => a * 256 + b) 0 := by
  induction l with
  | nil => intro acc; simp
  | cons b t ih =>
    intro acc
    simp only [List.foldl_cons, List.length_cons]
    rw [ih (acc * 256 + b), ih (0 * 256 + b)]
    ring

/-- Folding the bytes of `writeInt k n` big-endian recovers `n` modulo
`256 ^ k`. -/
theorem readIntValue_writeInt (k n : Nat) : readIntValue (writeInt k n) = n % 256 ^ k := by
  induction k with
  | zero => simp [writeInt, readIntValue, Nat.mod_one]
  | succ k ih =>
    simp only [writeInt, readIntValue, List.foldl_cons]
    rw [foldl_mul256 (writeInt k n) (0 * 256 + n / 256 ^ k % 256)]
    rw [length_writeInt]
    unfold readIntValue at ih
    rw [ih]
    rw [Nat.pow_succ, Nat.mod_mul]
    ring

/-- `readInt` inverts `writeInt` for values that fit. -/
theorem readInt_writeInt (s : RStream) (k L : Nat) (rest : List Nat)
    (h : s.data.drop s.pos = writeInt k L ++ rest) (hL : L < 256 ^ k) :
    readInt s k = (L, ⟨s.data, s.pos + k⟩) := by
  unfold readInt
  rw [h, take_append_len _ _ _ (length_writeInt k L)]
  dsimp only
  rw [readIntValue_writeInt, Nat.mod_eq_of_lt hL, length_writeInt]

/-- `varLenGroupsGo` never returns the empty list. -/
theorem vG_ne_nil (fuel n : Nat) : varLenGroupsGo fuel n ≠ [] := by
  cases fuel with
  | zero => simp [varLenGroupsGo]
  | succ k =>
    simp only [varLenGroupsGo]
    split <;> simp

/-- The first group collected by `_writeVarLen` is `n % 128`. -/
theorem vG_cons (fuel n : Nat) : ∃ t, varLenGroupsGo fuel n = n % 128 :: t := by
  cases fuel with
  | zero => exact ⟨[], rfl⟩
  | succ k =>
    by_cases h : n / 128 = 0
    · exact ⟨[], by simp [varLenGroupsGo, h]⟩
    · exact ⟨varLenGroupsGo k (n / 128), by simp [varLenGroupsGo, h]⟩

/-- Every group collected by `_writeVarLen` is a 7-bit value. -/
theorem vG_mem_lt (fuel : Nat) : ∀ (n : Nat), ∀ b ∈ varLenGroupsGo fuel n, b < 128 := by
  induction fuel with
  | zero =>
    intro n b hb
    simp [varLenGroupsGo] at hb
    omega
  | succ k ih =>
    intro n b hb
    by_cases h : n / 128 = 0
    · simp [varLenGroupsGo, h] at hb
      omega
    · simp [varLenGroupsGo, h] at hb
      rcases hb with hb | hb
      · omega
      · exact ih _ b hb

/-- Recombining the groups least-significant-first recovers the value,
provided the fuel is at least the value (which `varLenGroups` ensures). -/
theorem vG_rv (fuel : Nat) : ∀ (n : Nat), n ≤ fuel →
    (varLenGroupsGo fuel n).foldr (fun b a => a * 128 + b) 0 = n := by
  induction fuel with
  | zero =>
    intro n hn
    interval_cases n
    rfl
  | succ k ih =>
    intro n hn
    by_cases h : n / 128 = 0
    · simp [varLenGroupsGo, h]
      omega
    · have h1 : n / 128 ≤ k := by omega
      simp [varLenGroupsGo, h, ih (n / 128) h1]
      omega

/-- The group list is minimal: its length never exceeds the number of
base-128 digits of the value. -/
theorem vG_min (fuel : Nat) : ∀ (n : Nat), n ≤ fuel → 1 ≤ n →
    128 ^ ((varLenGroupsGo fuel n).length - 1) ≤ n := by
  induction fuel with
  | zero =>
    intro n hn h1
    omega
  | succ k ih =>
    intro n hn h1
    by_cases h : n / 128 = 0
    · simp [varLenGroupsGo, h]
      omega
    · have h1' : 1 ≤ n / 128 := by omega
      have hk : n / 128 ≤ k := by omega
      have hrec := ih (n / 128) hk h1'
      have hne := vG_ne_nil k (n / 128)
      have hlen : 1 ≤ (varLenGroupsGo k (n / 128)).length := by
        cases hl : varLenGroupsGo k (n / 128) with
        | nil => exact absurd hl hne
        | cons a t => simp
      simp only [varLenGroupsGo, h, if_neg h, List.length_cons]
      have hmul : 128 ^ ((varLenGroupsGo k (n / 128)).length - 1) * 128 ≤ n / 128 * 128 :=
        Nat.mul_le_mul_right 128 hrec
      calc 128 ^ ((varLenGroupsGo k (n / 128)).length + 1 - 1)
          = 128 ^ ((varLenGroupsGo k (n / 128)).length - 1) * 128 := by
            rw [← Nat.pow_succ]
            congr 1
            omega
        _ ≤ n / 128 * 128 := hmul
        _ ≤ n := by
            have := Nat.div_add_mod n 128
            omega

/-- `_readVarLen` on a list of continuation-marked 7-bit groups followed
by a final unmarked group accumulates them big-endian and consumes
exactly the encoding. -/
theorem readVarLenGo_marked (m : List Nat) (g0 : Nat) (hg : g0 < 128) (rest : List Nat) :
    ∀ acc : Nat, (∀ b ∈ m, b < 128) →
    readVarLenGo (m.map (fun b => b + 128) ++ g0 :: rest) acc =
      .ok (m.foldl (fun a b => a * 128 + b) acc * 128 + g0, m.length + 1) := by
  induction m with
  | nil =>
    intro acc _
    simp [readVarLenGo, Nat.mod_eq_of_lt hg, Nat.div_eq_of_lt hg]
  | cons x m ih =>
    intro acc hm
    have hx : x < 128 := hm x (by simp)
    simp only [List.map_cons, List.cons_append, readVarLenGo]
    rw [show (x + 128) % 128 = x % 128 from by omega, Nat.mod_eq_of_lt hx]
    rw [show (x + 128) / 128 = 1 from by omega]
    rw [if_neg (by omega : ¬ (1 : Nat) = 0)]
    simp only [List.append_eq]
    rw [ih (acc * 128 + x) (fun b hb => hm b (by simp [hb]))]
    simp [Except.map]

/-- The shape of `_writeVarLen`'s output: the marked continuation groups
most-significant-first, then the unmarked group `n % 128`. -/
theorem writeVarLen_eq (n : Nat) :
    ∃ gs, varLenGroups n = n % 128 :: gs ∧
      writeVarLen n = (gs.map (fun b => b + 128)).reverse ++ [n % 128] := by
  obtain ⟨t, ht⟩ := vG_cons n n
  refine ⟨t, ht, ?_⟩
  unfold writeVarLen
  rw [show varLenGroups n = n % 128 :: t from ht]

/-- `_readMetaEvent` on a stream whose remainder holds a meta type byte,
a single-byte length, and that many data bytes. -/
theorem readMetaEvent_at (delta metaType n : Nat) (front data rest : List Nat)
    (hn : n < 128) (hd : data.length = n) :
    readMetaEvent delta ⟨front ++ metaType :: n :: (data ++ rest), front.length⟩ =
      .ok ((if metaType = META_END_OF_TRACK then .endOfTrack delta
            else .meta delta metaType data),
        ⟨front ++ metaType :: n :: (data ++ rest), front.length + 2 + n⟩) := by
  have e1 : (front ++ metaType :: n :: (data ++ rest)).drop front.length =
      metaType :: (n :: (data ++ rest)) := drop_append_len _ _ _ rfl
  have e2 : (front ++ metaType :: n :: (data ++ rest)).drop (front.length + 1) =
      n :: (data ++ rest) := by
    rw [show front ++ metaType :: n :: (data ++ rest) =
      (front ++ [metaType]) ++ n :: (data ++ rest) by simp]
    exact drop_append_len _ _ _ (by simp)
  have e3 : (front ++ metaType :: n :: (data ++ rest)).drop (front.length + 1 + 1) =
      data ++ rest := by
    rw [show front ++ metaType :: n :: (data ++ rest) =
      (front ++ [metaType, n]) ++ (data ++ rest) by simp]
    exact drop_append_len _ _ _ (by simp)
  unfold readMetaEvent
  rw [readInt_one _ _ _ e1]
  dsimp only
  rw [readVarLen_single _ _ _ hn e2]
  rw [except_bind_ok]
  dsimp only
  rw [readBlock_exact _ _ _ _ hd e3]
  dsimp only
  rw [show front.length + 1 + 1 + n = front.length + 2 + n from by omega]
  by_cases hmt : metaType = META_END_OF_TRACK
  · rw [if_pos hmt, if_pos hmt]
    rfl
  · rw [if_neg hmt, if_neg hmt]
    rfl

/-- `_readMIDIEvent` fails with `NameError` whenever the resolved status
nibble matches none of the seven defined branches. -/
theorem readChannelBody_unsupported (delta pfx : Nat) (s : RStream) (rs : Nat)
    (h : pfx / 16 < 8 ∨ 14 < pfx / 16) :
    readChannelBody delta pfx s rs = .error .nameError := by
  unfold readChannelBody
  have h8 : ¬ pfx / 16 = STATUS_NOTE_OFF := by simp only [STATUS_NOTE_OFF]; omega
  have h9 : ¬ pfx / 16 = STATUS_NOTE_ON := by simp only [STATUS_NOTE_ON]; omega
  have h10 : ¬ pfx / 16 = STATUS_POLY_KEY_PRESS := by
    simp only [STATUS_POLY_KEY_PRESS]; omega
  have h11 : ¬ pfx / 16 = STATUS_CONTROL_CHANGE := by
    simp only [STATUS_CONTROL_CHANGE]; omega
  have h12 : ¬ pfx / 16 = STATUS_PROGRAM_CHANGE := by
    simp only [STATUS_PROGRAM_CHANGE]; omega
  have h13 : ¬ pfx / 16 = STATUS_CHANNEL_PRESS := by
    simp only [STATUS_CHANNEL_PRESS]; omega
  have h14 : ¬ pfx / 16 = STATUS_PITCH_WHEEL_CHANGE := by
    simp only [STATUS_PITCH_WHEEL_CHANGE]; omega
  rw [if_neg h8, if_neg h9, if_neg h10, if_neg h11, if_neg h12, if_neg h13, if_neg h14]

/-! ## Claim theorems -/

set_option maxRecDepth 100000 in
/-- C1.  The claim says `decode(encode(D)) = D` for every well-formed
document, with system-exclusive and meta data of any length.  The code
cannot deliver this: `_writeSystemExclusiveEvent` references the
undefined name `data` (a `NameError`) whenever a system-exclusive event
has non-empty data, and both `_writeMetaEvent` and
`_writeSystemExclusiveEvent` emit the data length as ONE fixed byte
instead of a var-length quantity, so a 128-byte meta payload is written
with length byte `0x80`, which the reader consumes as a var-length
continuation byte and desynchronizes on.  Both witnessing documents are
well formed; encoding the first raises, and decoding the encoding of the
second fails instead of returning the document. -/
theorem c1_roundtrip_code_bug :
    MIDI.wf c1DocSys = true
    ∧ writeMIDI c1DocSys = .error .nameError
    ∧ MIDI.wf c1DocMeta = true
    ∧ writeMIDI c1DocMeta = .ok c1MetaBytes
    ∧ readMIDI c1MetaBytes = .error .nameError :=
  ⟨by decide, rfl, by decide, rfl, rfl⟩

/-- C2, counterexample.  `_writeHeader` emits the STORED
`header.trackCount` field: for a document holding a stale value `5` and
zero tracks, the encoded header carries `[0, 5]` where the claim demands
the encoding of the actual track count `0`. -/
theorem c2_trackCount_counterexample :
    writeMIDI { header := ⟨1, 96, 5⟩, tracks := [] } =
      .ok [0x4D, 0x54, 0x68, 0x64, 0, 0, 0, 6, 0, 1, 0, 5, 0, 96]
    ∧ ({ header := ⟨1, 96, 5⟩, tracks := [] } : MIDI).tracks.length = 0
    ∧ [(0 : Nat), 5] ≠ writeInt 2 0 :=
  ⟨rfl, rfl, by decide⟩

/-- C2, amended.  The writer itself trusts the stored field; the
recomputation happens in the `MIDI` constructor, which overwrites any
caller-supplied `trackCount` with the length of the track list, so a
document built by `MIDI.__init__` and left unmutated is written with a
`trackCount` field equal to its number of tracks. -/
theorem c2_trackCount_amended (h : MIDIHeader) (ts : List MIDITrack) :
    (MIDI.make (some h) ts).header.trackCount = ts.length
    ∧ writeHeader (MIDI.make (some h) ts).header =
        CHUNK_TYPE_HEADER ++ writeInt 4 6 ++ writeInt 2 h.frmt ++
          writeInt 2 ts.length ++ writeInt 2 h.division := by
  constructor
  · rfl
  · rfl

/-- C3.  With the high bit of the byte just read clear, `_readMIDIEvent`
substitutes the stored running status (nibble and channel alike) and
seeks the stream back one byte, so the byte just read is re-read as the
first operand; in particular the stream
`[0x00, 0x90, 0x3C, 0x64, 0x00, 0x3C, 0x00]` decodes as
`NoteOn(channel 0, key 0x3C, vel 0x64)` followed by
`NoteOn(channel 0, key 0x3C, vel 0x00)`, the second resolved through
running status `0x90`. -/
theorem c3_running_status :
    (∀ (delta p : Nat) (s : RStream) (rs : Nat),
      readMIDIEvent delta (p % 128) s rs =
        readChannelBody delta rs ⟨s.data, s.pos - 1⟩ rs)
    ∧ readEvent ⟨[0x00, 0x90, 0x3C, 0x64, 0x00, 0x3C, 0x00], 0⟩ 0 =
        .ok (.noteOn 0 0 0x3C 0x64, ⟨[0x00, 0x90, 0x3C, 0x64, 0x00, 0x3C, 0x00], 4⟩, 0x90)
    ∧ readEvent ⟨[0x00, 0x90, 0x3C, 0x64, 0x00, 0x3C, 0x00], 4⟩ 0x90 =
        .ok (.noteOn 0 0 0x3C 0x00, ⟨[0x00, 0x90, 0x3C, 0x64, 0x00, 0x3C, 0x00], 7⟩, 0x90) := by
  refine ⟨fun delta p s rs => ?_, rfl, rfl⟩
  have hlt : p % 128 < 128 := Nat.mod_lt p (by norm_num)
  simp [readMIDIEvent, Nat.div_eq_of_lt hlt]

/-- C5, counterexample.  The running status is reader-instance state and
is NOT reset between tracks: in the two-track file `c5FileBytes` the
second track's first channel byte `0x3C` (high bit clear) resolves
against the status byte `0x90` stored while reading the FIRST track,
yielding a `NoteOn`; decoding that same second track with a fresh reader
(running status `0`) fails instead. -/
theorem c5_running_status_counterexample :
    readMIDI c5FileBytes =
      .ok ⟨⟨1, 96, 2⟩, [⟨[.noteOn 0 0 0x3C 0x64, .endOfTrack 0]⟩,
        ⟨[.noteOn 0 0 0x3C 0x00, .endOfTrack 0]⟩]⟩
    ∧ readTrack ⟨c5Track2Bytes, 0⟩ 0 = .error .nameError :=
  ⟨rfl, rfl⟩

/-- C5, amended.  The running-status value is `MIDIReader` instance
state, initialized to `0` at construction and carried unchanged from one
track into the next: handed the value `0x90` left by a previous track,
`_readTrack` resolves `c5Track2Bytes`'s status-less first event to a
`NoteOn` on channel 0 and returns with the same running status. -/
theorem c5_running_status_amended :
    readTrack ⟨c5Track2Bytes, 0⟩ 0x90 =
      .ok (⟨[.noteOn 0 0 0x3C 0x00, .endOfTrack 0]⟩, ⟨c5Track2Bytes, 15⟩, 0x90) :=
  rfl

/-- C7, counterexample.  A declared header chunk length LESS than 6 is
not a `FormatError`: `_readHeader` runs `self._readBlock(f, length - 6)`
with a negative count, which (Python 2 `file.read`) consumes the rest of
the stream, and with `trackCount = 0` the whole decode then SUCCEEDS. -/
theorem c7_header_counterexample :
    readMIDI (CHUNK_TYPE_HEADER ++ [0, 0, 0, 5, 0, 1, 0, 0, 0, 96]) =
      .ok ⟨⟨1, 96, 0⟩, []⟩ :=
  rfl

/-- C8, counterexample.  `_readInt` does not fail on a short stream: with
a single byte `0x01` remaining, reading a 2-byte integer returns the
value `1` computed from the one partial byte and leaves the cursor at end
of file. -/
theorem c8_readInt_counterexample :
    readInt ⟨[0x01], 0⟩ 2 = (1, ⟨[0x01], 1⟩) :=
  rfl

/-- C9, counterexample.  A status byte `0xF1` reaches `_readMIDIEvent`,
matches no status branch, and the trailing `return event` raises a
Python `NameError` — not a `MIDIIOError` of the library, hence not any
dedicated `UnsupportedEventError`. -/
theorem c9_unsupported_counterexample :
    readEvent ⟨[0x00, 0xF1], 0⟩ 0 = .error .nameError
    ∧ PyErr.nameError ≠ PyErr.invalidHeaderId
    ∧ PyErr.nameError ≠ PyErr.invalidTrackId :=
  ⟨rfl, by decide, by decide⟩

/-- C4.  For every value in the 28-bit range, `_readVarLen` applied to
the output of `_writeVarLen` returns the value, consuming exactly the
encoding; every byte but the last carries the continuation bit, the last
byte is the unmarked group `v % 128`; the encoding is minimal (its length
never exceeds the number of base-128 digits of `v`); and the value `0` is
encoded as the single byte `0x00`. -/
theorem c4_varlen_roundtrip (v : Nat) (_hv : v ≤ 0xFFFFFFF) :
    (∀ rest : List Nat, readVarLen ⟨writeVarLen v ++ rest, 0⟩ =
        .ok (v, ⟨writeVarLen v ++ rest, (writeVarLen v).length⟩))
    ∧ (∀ b ∈ (writeVarLen v).dropLast, 128 ≤ b ∧ b < 256)
    ∧ (writeVarLen v).getLast? = some (v % 128)
    ∧ v % 128 < 128
    ∧ (0 < v → 128 ^ ((writeVarLen v).length - 1) ≤ v)
    ∧ writeVarLen 0 = [0] := by
  obtain ⟨gs, hgroups, hw⟩ := writeVarLen_eq v
  have hmem : ∀ b ∈ gs, b < 128 := by
    intro b hb
    exact vG_mem_lt v v b
      (by rw [show varLenGroupsGo v v = varLenGroups v from rfl, hgroups]; simp [hb])
  have hlen : (writeVarLen v).length = gs.length + 1 := by
    rw [hw]; simp
  refine ⟨?_, ?_, ?_, by omega, ?_, rfl⟩
  · intro rest
    unfold readVarLen
    rw [List.drop_zero]
    rw [hw]
    rw [show (gs.map (fun b => b + 128)).reverse ++ [v % 128] ++ rest =
      gs.reverse.map (fun b => b + 128) ++ (v % 128 :: rest) by simp]
    rw [readVarLenGo_marked gs.reverse (v % 128) (by omega) rest 0
      (fun b hb => hmem b (List.mem_reverse.mp hb))]
    have hval : List.foldl (fun a b => a * 128 + b) 0 gs.reverse * 128 + v % 128 = v := by
      rw [List.foldl_reverse]
      have hrv := vG_rv v v (le_refl v)
      rw [show varLenGroupsGo v v = varLenGroups v from rfl, hgroups] at hrv
      simp only [List.foldr_cons] at hrv
      omega
    rw [hval]
    simp [Except.map, hlen, hw]
  · intro b hb
    rw [hw, List.dropLast_concat] at hb
    rw [List.mem_reverse] at hb
    obtain ⟨x, hx, rfl⟩ := List.mem_map.mp hb
    have := hmem x hx
    omega
  · rw [hw, List.getLast?_concat]
  · intro hpos
    have := vG_min v v (le_refl v) hpos
    rw [show varLenGroupsGo v v = varLenGroups v from rfl, hgroups] at this
    rw [hlen]
    simpa using this

/-- C4, witness: the round trip and byte-shape facts instantiated at
`v = 300`, whose encoding is the two bytes `[0x82, 0x2C]`. -/
theorem c4_varlen_roundtrip_witness :
    readVarLen ⟨writeVarLen 300 ++ [7], 0⟩ =
      .ok (300, ⟨writeVarLen 300 ++ [7], (writeVarLen 300).length⟩)
    ∧ (writeVarLen 300).getLast? = some (300 % 128) :=
  ⟨(c4_varlen_roundtrip 300 (by decide)).1 [7],
   (c4_varlen_roundtrip 300 (by decide)).2.2.1⟩

/-- C6.  A meta event whose type byte differs from `0x2F` decodes into a
generic `MetaEvent` carrying the type and data bytes unchanged — no
failure and no `EndOfTrackEvent` — for ANY type byte (including
unrecognized ones) and any data fitting a single-byte length. -/
theorem c6_unknown_meta (delta metaType n : Nat) (front data rest : List Nat)
    (ht : metaType ≠ META_END_OF_TRACK) (hn : n < 128) (hd : data.length = n) :
    readMetaEvent delta ⟨front ++ metaType :: n :: (data ++ rest), front.length⟩ =
      .ok (.meta delta metaType data,
        ⟨front ++ metaType :: n :: (data ++ rest), front.length + 2 + n⟩) := by
  rw [readMetaEvent_at delta metaType n front data rest hn hd, if_neg ht]

/-- C6, witness: the unrecognized meta type `0x01` with two data bytes
decodes into the generic `MetaEvent 0x01 [0xAA, 0xBB]`. -/
theorem c6_unknown_meta_witness :
    readMetaEvent 0 ⟨[0x01, 2, 0xAA, 0xBB], 0⟩ =
      .ok (.meta 0 0x01 [0xAA, 0xBB], ⟨[0x01, 2, 0xAA, 0xBB], 4⟩) := by
  have h := c6_unknown_meta 0 0x01 2 [] [0xAA, 0xBB] [] (by decide) (by decide) (by decide)
  simpa using h

/-- C7, amended.  (1) A header tag other than `'MThd'` fails with the
`MIDIIOError` for an invalid header identifier.  (2) A declared chunk
length larger than 6 makes `_readHeader` consume and discard exactly the
surplus bytes after the three fields.  (3) A declared chunk length LESS
than 6 is NOT an error: `_readBlock(f, length - 6)` receives a negative
count and consumes the remainder of the stream, and `_readHeader` returns
normally. -/
theorem c7_header_amended :
    (∀ s : RStream, (s.data.drop s.pos).take 4 ≠ CHUNK_TYPE_HEADER →
      readHeader s = .error .invalidHeaderId)
    ∧ (∀ extra rest : List Nat, extra.length + 6 < 4294967296 →
      readHeader ⟨CHUNK_TYPE_HEADER ++ writeInt 4 (extra.length + 6) ++
          (0 :: 1 :: 0 :: 2 :: 0 :: 96 :: (extra ++ rest)), 0⟩ =
        .ok (⟨1, 96, 2⟩, ⟨CHUNK_TYPE_HEADER ++ writeInt 4 (extra.length + 6) ++
          (0 :: 1 :: 0 :: 2 :: 0 :: 96 :: (extra ++ rest)), 14 + extra.length⟩))
    ∧ (∀ rest : List Nat,
      readHeader ⟨CHUNK_TYPE_HEADER ++ (0 :: 0 :: 0 :: 5 :: 0 :: 1 :: 0 :: 0 :: 0 :: 96 :: rest), 0⟩ =
        .ok (⟨1, 96, 0⟩, ⟨CHUNK_TYPE_HEADER ++ (0 :: 0 :: 0 :: 5 :: 0 :: 1 :: 0 :: 0 :: 0 :: 96 :: rest),
          14 + rest.length⟩)) := by
  refine ⟨?_, ?_, ?_⟩
  · intro s h
    unfold readHeader readBlock
    rw [if_neg (by omega : ¬ (4 : Int) < 0)]
    dsimp only
    rw [if_pos (by simpa using h)]
  · intro extra rest hL
    set W := writeInt 4 (extra.length + 6) with hW
    set B := CHUNK_TYPE_HEADER ++ W ++ (0 :: 1 :: 0 :: 2 :: 0 :: 96 :: (extra ++ rest)) with hB
    have d0 : B.drop 0 =
        CHUNK_TYPE_HEADER ++ (W ++ (0 :: 1 :: 0 :: 2 :: 0 :: 96 :: (extra ++ rest))) := by
      simp [hB]
    have d4 : B.drop (0 + 4) = W ++ (0 :: 1 :: 0 :: 2 :: 0 :: 96 :: (extra ++ rest)) := by
      rw [show B = CHUNK_TYPE_HEADER ++
        (W ++ (0 :: 1 :: 0 :: 2 :: 0 :: 96 :: (extra ++ rest))) by simp [hB]]
      exact drop_append_len _ _ _ (by simp [CHUNK_TYPE_HEADER])
    have d8 : B.drop (0 + 4 + 4) = 0 :: 1 :: (0 :: 2 :: 0 :: 96 :: (extra ++ rest)) := by
      rw [show B = (CHUNK_TYPE_HEADER ++ W) ++
        (0 :: 1 :: 0 :: 2 :: 0 :: 96 :: (extra ++ rest)) by simp [hB]]
      exact drop_append_len _ _ _ (by simp [CHUNK_TYPE_HEADER, hW, length_writeInt])
    have d10 : B.drop (0 + 4 + 4 + 2) = 0 :: 2 :: (0 :: 96 :: (extra ++ rest)) := by
      rw [show B = (CHUNK_TYPE_HEADER ++ W ++ [0, 1]) ++
        (0 :: 2 :: 0 :: 96 :: (extra ++ rest)) by simp [hB]]
      exact drop_append_len _ _ _ (by simp [CHUNK_TYPE_HEADER, hW, length_writeInt])
    have d12 : B.drop (0 + 4 + 4 + 2 + 2) = 0 :: 96 :: (extra ++ rest) := by
      rw [show B = (CHUNK_TYPE_HEADER ++ W ++ [0, 1, 0, 2]) ++
        (0 :: 96 :: (extra ++ rest)) by simp [hB]]
      exact drop_append_len _ _ _ (by simp [CHUNK_TYPE_HEADER, hW, length_writeInt])
    have d14 : B.drop (0 + 4 + 4 + 2 + 2 + 2) = extra ++ rest := by
      rw [show B = (CHUNK_TYPE_HEADER ++ W ++ [0, 1, 0, 2, 0, 96]) ++
        (extra ++ rest) by simp [hB]]
      exact drop_append_len _ _ _ (by simp [CHUNK_TYPE_HEADER, hW, length_writeInt])
    unfold readHeader
    rw [readBlock_tag ⟨B, 0⟩ CHUNK_TYPE_HEADER _ (by simp [CHUNK_TYPE_HEADER]) d0]
    dsimp only
    rw [if_neg (by simp)]
    rw [readInt_writeInt ⟨B, 0 + 4⟩ 4 (extra.length + 6) _ d4 (by norm_num; omega)]
    dsimp only
    rw [readInt_two ⟨B, 0 + 4 + 4⟩ 0 1 _ d8]
    dsimp only
    rw [readInt_two ⟨B, 0 + 4 + 4 + 2⟩ 0 2 _ d10]
    dsimp only
    rw [readInt_two ⟨B, 0 + 4 + 4 + 2 + 2⟩ 0 96 _ d12]
    dsimp only
    rw [show ((↑(extra.length + 6) : Int) - 6) = ((extra.length : Nat) : Int) by push_cast; ring]
    rw [readBlock_exact ⟨B, 0 + 4 + 4 + 2 + 2 + 2⟩ extra rest extra.length rfl d14]
    dsimp only
    rw [show 0 + 4 + 4 + 2 + 2 + 2 + extra.length = 14 + extra.length from by omega]
    rfl
  · intro rest
    set B := CHUNK_TYPE_HEADER ++ (0 :: 0 :: 0 :: 5 :: 0 :: 1 :: 0 :: 0 :: 0 :: 96 :: rest) with hB
    have d0 : B.drop 0 =
        CHUNK_TYPE_HEADER ++ (0 :: 0 :: 0 :: 5 :: 0 :: 1 :: 0 :: 0 :: 0 :: 96 :: rest) := by
      simp [hB]
    have d4 : B.drop (0 + 4) = 0 :: 0 :: 0 :: 5 :: (0 :: 1 :: 0 :: 0 :: 0 :: 96 :: rest) := by
      rw [hB]
      exact drop_append_len _ _ _ (by simp [CHUNK_TYPE_HEADER])
    have d8 : B.drop (0 + 4 + 4) = 0 :: 1 :: (0 :: 0 :: 0 :: 96 :: rest) := by
      rw [show B = (CHUNK_TYPE_HEADER ++ [0, 0, 0, 5]) ++
        (0 :: 1 :: 0 :: 0 :: 0 :: 96 :: rest) by simp [hB]]
      exact drop_append_len _ _ _ (by simp [CHUNK_TYPE_HEADER])
    have d10 : B.drop (0 + 4 + 4 + 2) = 0 :: 0 :: (0 :: 96 :: rest) := by
      rw [show B = (CHUNK_TYPE_HEADER ++ [0, 0, 0, 5, 0, 1]) ++
        (0 :: 0 :: 0 :: 96 :: rest) by simp [hB]]
      exact drop_append_len _ _ _ (by simp [CHUNK_TYPE_HEADER])
    have d12 : B.drop (0 + 4 + 4 + 2 + 2) = 0 :: 96 :: rest := by
      rw [show B = (CHUNK_TYPE_HEADER ++ [0, 0, 0, 5, 0, 1, 0, 0]) ++
        (0 :: 96 :: rest) by simp [hB]]
      exact drop_append_len _ _ _ (by simp [CHUNK_TYPE_HEADER])
    have d14 : B.drop (0 + 4 + 4 + 2 + 2 + 2) = rest := by
      rw [show B = (CHUNK_TYPE_HEADER ++ [0, 0, 0, 5, 0, 1, 0, 0, 0, 96]) ++ rest by simp [hB]]
      exact drop_append_len _ _ _ (by simp [CHUNK_TYPE_HEADER])
    unfold readHeader
    rw [readBlock_tag ⟨B, 0⟩ CHUNK_TYPE_HEADER _ (by simp [CHUNK_TYPE_HEADER]) d0]
    dsimp only
    rw [if_neg (by simp)]
    rw [readInt_four ⟨B, 0 + 4⟩ 0 0 0 5 _ d4]
    dsimp only
    rw [readInt_two ⟨B, 0 + 4 + 4⟩ 0 1 _ d8]
    dsimp only
    rw [readInt_two ⟨B, 0 + 4 + 4 + 2⟩ 0 0 _ d10]
    dsimp only
    rw [readInt_two ⟨B, 0 + 4 + 4 + 2 + 2⟩ 0 96 _ d12]
    dsimp only
    norm_num
    rw [readBlock_neg ⟨B, 14⟩ (-1) (by norm_num)]
    dsimp only
    rw [show B.drop 14 = rest from by simpa using d14]
    rfl

/-- C7, witness: the three amended behaviours at concrete inputs — a bad
tag, a declared length of 8 with two pad bytes, and a declared length of
5 with one trailing byte that gets consumed. -/
theorem c7_header_amended_witness :
    readHeader ⟨[0, 0, 0, 0], 0⟩ = .error .invalidHeaderId
    ∧ readHeader ⟨[0x4D, 0x54, 0x68, 0x64, 0, 0, 0, 8, 0, 1, 0, 2, 0, 96, 0xAA, 0xBB], 0⟩ =
        .ok (⟨1, 96, 2⟩, ⟨[0x4D, 0x54, 0x68, 0x64, 0, 0, 0, 8, 0, 1, 0, 2, 0, 96, 0xAA, 0xBB], 16⟩)
    ∧ readHeader ⟨[0x4D, 0x54, 0x68, 0x64, 0, 0, 0, 5, 0, 1, 0, 0, 0, 96, 7], 0⟩ =
        .ok (⟨1, 96, 0⟩, ⟨[0x4D, 0x54, 0x68, 0x64, 0, 0, 0, 5, 0, 1, 0, 0, 0, 96, 7], 15⟩) := by
  refine ⟨c7_header_amended.1 ⟨[0, 0, 0, 0], 0⟩ (by decide), ?_, ?_⟩
  · have h := c7_header_amended.2.1 [0xAA, 0xBB] [] (by decide)
    simpa [CHUNK_TYPE_HEADER, writeInt] using h
  · have h := c7_header_amended.2.2 [7]
    simpa [CHUNK_TYPE_HEADER] using h

/-- C8, amended.  `_readInt` never raises on truncation: when fewer bytes
remain than requested it folds exactly the remaining bytes big-endian and
leaves the cursor at end of file. -/
theorem c8_readInt_amended (s : RStream) (n : Nat) (hpos : s.pos ≤ s.data.length)
    (hshort : s.data.length - s.pos < n) :
    readInt s n = (readIntValue (s.data.drop s.pos), ⟨s.data, s.data.length⟩) := by
  unfold readInt
  have hlen : (s.data.drop s.pos).length = s.data.length - s.pos := List.length_drop _ _
  rw [List.take_of_length_le (by omega)]
  dsimp only
  rw [hlen]
  rw [show s.pos + (s.data.length - s.pos) = s.data.length from by omega]

/-- C8, witness: from position 1 of a two-byte stream, a 3-byte read
returns the value of the single remaining byte. -/
theorem c8_readInt_amended_witness :
    readInt ⟨[5, 6], 1⟩ 3 = (6, ⟨[5, 6], 2⟩) := by
  have h := c8_readInt_amended ⟨[5, 6], 1⟩ 3 (by decide) (by decide)
  simpa [readIntValue] using h

/-- C9, amended.  Whenever the resolved status nibble (the fresh prefix
byte if its high bit is set, the stored running status otherwise) is
outside `{8, ..., 14}`, `_readMIDIEvent` fails — but with a Python
`NameError` from the unbound local `event` (the dispatch has no `else`
branch), not with a dedicated `UnsupportedEventError`. -/
theorem c9_unsupported_amended (delta pfx : Nat) (s : RStream) (rs : Nat)
    (h : (if pfx / 128 % 2 = 1 then pfx else rs) / 16 < 8 ∨
        14 < (if pfx / 128 % 2 = 1 then pfx else rs) / 16) :
    readMIDIEvent delta pfx s rs = .error .nameError := by
  unfold readMIDIEvent
  by_cases hc : pfx / 128 % 2 = 1
  · rw [if_pos hc] at h ⊢
    exact readChannelBody_unsupported _ _ _ _ h
  · rw [if_neg hc] at h ⊢
    exact readChannelBody_unsupported _ _ _ _ h

/-- C9, witness: a fresh status byte `0xF1` (nibble 15), and a
running-status byte applied while the stored running status is still the
initial `0` (nibble 0), both fail with `NameError`. -/
theorem c9_unsupported_amended_witness :
    readMIDIEvent 0 0xF1 ⟨[], 0⟩ 0 = .error .nameError
    ∧ readMIDIEvent 0 0x3C ⟨[0x3C, 0x00], 1⟩ 0 = .error .nameError :=
  ⟨c9_unsupported_amended 0 0xF1 ⟨[], 0⟩ 0 (by decide),
   c9_unsupported_amended 0 0x3C ⟨[0x3C, 0x00], 1⟩ 0 (by decide)⟩

/-- C10.  A meta event with type `0x2F` and a NON-zero declared data
length does not fail: the declared number of data bytes is consumed and
discarded, the result is `EndOfTrackEvent` (which stores no data), and it
terminates the `_readTrack` loop exactly as the canonical zero-length
end-of-track does: the two concrete tracks below decode to the same
single-event track, the first leaving its trailing bytes `[9, 9, 9]`
unconsumed. -/
theorem c10_eot_with_data :
    (∀ (delta n : Nat) (front data rest : List Nat), n < 128 → data.length = n →
      readMetaEvent delta ⟨front ++ 0x2F :: n :: (data ++ rest), front.length⟩ =
        .ok (.endOfTrack delta,
          ⟨front ++ 0x2F :: n :: (data ++ rest), front.length + 2 + n⟩))
    ∧ readTrack ⟨CHUNK_TYPE_TRACK ++ [0, 0, 0, 6] ++
          [0x00, 0xFF, 0x2F, 0x02, 0xAA, 0xBB] ++ [9, 9, 9], 0⟩ 0 =
        .ok (⟨[.endOfTrack 0]⟩, ⟨CHUNK_TYPE_TRACK ++ [0, 0, 0, 6] ++
          [0x00, 0xFF, 0x2F, 0x02, 0xAA, 0xBB] ++ [9, 9, 9], 14⟩, 0)
    ∧ readTrack ⟨CHUNK_TYPE_TRACK ++ [0, 0, 0, 4] ++ [0x00, 0xFF, 0x2F, 0x00], 0⟩ 0 =
        .ok (⟨[.endOfTrack 0]⟩, ⟨CHUNK_TYPE_TRACK ++ [0, 0, 0, 4] ++
          [0x00, 0xFF, 0x2F, 0x00], 12⟩, 0) := by
  refine ⟨fun delta n front data rest hn hd => ?_, rfl, rfl⟩
  have h := readMetaEvent_at delta 0x2F n front data rest hn hd
  simpa [META_END_OF_TRACK] using h

/-- C10, witness: a `0x2F` meta event declaring two data bytes decodes to
`EndOfTrackEvent` with the two bytes consumed. -/
theorem c10_eot_with_data_witness :
    readMetaEvent 0 ⟨[0x2F, 2, 0xAA, 0xBB], 0⟩ =
      .ok (.endOfTrack 0, ⟨[0x2F, 2, 0xAA, 0xBB], 4⟩) := by
  have h := c10_eot_with_data.1 0 2 [] [0xAA, 0xBB] [] (by decide) (by decide)
  simpa using h

end Iomidi
